import Mathlib

/-!
Shallow embedding of the CPU hardware-state probing subsystem of
`perf/metadata.py` (pyperf).  Python exceptions are modelled with `Except`,
the process-wide `_get_cpu_boost.working` flag as explicit state threading,
Python dicts as insertion-ordered association lists, and the values read
from `/proc` and `/sys` (after the `default=` handling of `_first_line`)
as injected strings.  Python `float` values appearing in the store are
modelled by the exact rational denoted by their decimal literal; `round`
and `"%.0f"` use round-half-to-even, as CPython does.
-/

deriving instance DecidableEq for Except

namespace PyperfMeta

/-- Python exception kinds raised by the embedded code.  `valueError` is the
spec's `ParseError` (Python `ValueError`). -/
inductive PErr where
  | keyError
  | indexError
  | typeError
  | valueError
  | ioError
  deriving DecidableEq, Repr

/-! ## Python string primitives used by the source -/

/-- Split a character list at the first occurrence of `sep`: text before and
after it, or `none` when `sep` does not occur. -/
def splitFirstChar (sep : Char) : List Char → Option (List Char × List Char)
  | [] => none
  | c :: rest =>
    if c = sep then some ([], rest)
    else (splitFirstChar sep rest).map (fun p => (c :: p.1, p.2))

/-- Python `s.split(':', 1)[-1]`: the text after the first colon, or the whole
string when there is no colon. -/
def pyAfterColon (s : String) : String :=
  match splitFirstChar ':' s.data with
  | none => s
  | some p => String.mk p.2

/-- Python `s.split(':', 1)[1]`: the text after the first colon; raises
`IndexError` when there is no colon. -/
def pyIndex1Colon (s : String) : Except PErr String :=
  match splitFirstChar ':' s.data with
  | none => .error .indexError
  | some p => .ok (String.mk p.2)

/-- Prefix test on character lists. -/
def isPrefixList : List Char → List Char → Bool
  | [], _ => true
  | _ :: _, [] => false
  | a :: as, b :: bs => a = b && isPrefixList as bs

/-- Python `s.startswith(pre)`. -/
def startsWithStr (pre s : String) : Bool :=
  isPrefixList pre.data s.data

/-- Substring occurrence test on character lists. -/
def isSubList (pat : List Char) : List Char → Bool
  | [] => pat.isEmpty
  | l@(_ :: rest) => isPrefixList pat l || isSubList pat rest

/-- Python `pat in s` substring test. -/
def containsStr (pat s : String) : Bool :=
  isSubList pat.data s.data

/-- Drop leading whitespace characters. -/
def dropWhileWs : List Char → List Char
  | [] => []
  | c :: rest => if c.isWhitespace then dropWhileWs rest else c :: rest

/-- Python `s.strip()`: whitespace removed from both ends. -/
def pyStrip (s : String) : String :=
  String.mk (dropWhileWs (dropWhileWs s.data).reverse).reverse

/-- Python `int(value)` on an already-stripped string: optional sign followed
by decimal digits. -/
def parseIntPy (s : String) : Option Int :=
  match s.data with
  | [] => none
  | '-' :: rest =>
    if rest ≠ [] ∧ rest.all Char.isDigit then
      some (-(rest.foldl (fun a c => a * 10 + (c.toNat - 48)) 0 : Nat)) else none
  | '+' :: rest =>
    if rest ≠ [] ∧ rest.all Char.isDigit then
      some ((rest.foldl (fun a c => a * 10 + (c.toNat - 48)) 0 : Nat)) else none
  | l =>
    if l.all Char.isDigit then
      some ((l.foldl (fun a c => a * 10 + (c.toNat - 48)) 0 : Nat)) else none

/-- Digits of a decimal literal read as a natural number. -/
def digitsToNat (l : List Char) : Nat :=
  l.foldl (fun a c => a * 10 + (c.toNat - 48)) 0

/-- Python `float(value)` on an already-stripped string, for the plain decimal
forms that appear in the probed stores: optional sign, digits, optional
fractional part.  The result `(num, exp)` denotes the exact rational
`num / 10 ^ exp` of the literal. -/
def parseFloatPy (s : String) : Option (Int × Nat) :=
  let unsigned : List Char → Option (Int × Nat) := fun l =>
    match splitFirstChar '.' l with
    | none =>
      if l ≠ [] ∧ l.all Char.isDigit then some ((digitsToNat l : Int), 0) else none
    | some (a, b) =>
      if (a ≠ [] ∨ b ≠ []) ∧ a.all Char.isDigit ∧ b.all Char.isDigit then
        some ((digitsToNat (a ++ b) : Int), b.length)
      else none
  match s.data with
  | '-' :: rest => (unsigned rest).map (fun p => (-p.1, p.2))
  | '+' :: rest => unsigned rest
  | l => unsigned l

/-- CPython `round(x)` (and `"%.0f"` rendering) of the value `num / 10 ^ exp`:
round half to even. -/
def roundHalfEvenD (num : Int) (exp : Nat) : Int :=
  let d : Int := (10 : Int) ^ exp
  let f : Int := Int.fdiv num d
  let r : Int := num - f * d
  if 2 * r < d then f
  else if d < 2 * r then f + 1
  else if f % 2 = 0 then f else f + 1

/-! ## ToolRunner (`_get_cpu_boost`, lines 194-230) -/

/-- Observable behaviour of one attempted `cpupower -c <cpu> frequency-info`
invocation: the spawn fails (`OSError`), the child exits non-zero, or it
exits successfully with the given output lines. -/
inductive ToolOutcome where
  | launchFail
  | exitNonzero
  | exitOk (lines : List String)
  deriving DecidableEq, Repr

/-- The process-wide state of `_get_cpu_boost`: the sticky `working` function
attribute, plus a count of launch attempts (observable effect). -/
structure ToolState where
  working : Bool
  launches : Nat
  deriving DecidableEq, Repr

/-- Initial tool state: `_get_cpu_boost.working = True`, no launches yet. -/
def initToolState : ToolState := ⟨true, 0⟩

/-- Parsing loop of `_get_cpu_boost` over `stdout.splitlines()`; the `Bool`
argument is the `boost` section flag. -/
def parseCpupowerLoop : Bool → List String → Except PErr Bool
  | _, [] => .error .valueError
  | boost, l :: rest =>
    if boost then
      if containsStr "Supported:" l then
        let value := pyStrip (pyAfterColon l)
        if value = "no" then .ok false
        else if value = "yes" then .ok true
        else .error .valueError
      else parseCpupowerLoop true rest
    else
      if containsStr "boost state support" l then parseCpupowerLoop true rest
      else parseCpupowerLoop false rest

/-- Parse the successful `cpupower` output (lines 216-229). -/
def parse_cpupower (lines : List String) : Except PErr Bool :=
  parseCpupowerLoop false lines

/-- One call of `_get_cpu_boost` given the outcome the external tool would
produce: returns the new tool state and the call's result (`none` models the
Python `None` returns, `.error .valueError` the raised `ValueError`). -/
def run_cpu_boost (st : ToolState) (oc : ToolOutcome) : ToolState × Except PErr (Option Bool) :=
  if st.working = false then (st, .ok none)
  else
    match oc with
    | .launchFail => (⟨false, st.launches + 1⟩, .ok none)
    | .exitNonzero => (⟨false, st.launches + 1⟩, .ok none)
    | .exitOk lines =>
      match parse_cpupower lines with
      | .error e => (⟨st.working, st.launches + 1⟩, .error e)
      | .ok b => (⟨st.working, st.launches + 1⟩, .ok (some b))

/-- A sequence of `_get_cpu_boost` calls, keeping only the evolving state. -/
def runToolSeq (st : ToolState) (ocs : List ToolOutcome) : ToolState :=
  ocs.foldl (fun s oc => (run_cpu_boost s oc).1) st

/-! ## Python dicts as insertion-ordered association lists -/

/-- `d[k]` lookup that distinguishes a missing key. -/
def lookupV (m : List (Nat × String)) (k : Nat) : Option String :=
  (m.find? (fun p => p.1 = k)).map Prod.snd

/-- `d[k] = v`: overwrite in place, or append a new entry. -/
def setKey (m : List (Nat × String)) (k : Nat) (v : String) : List (Nat × String) :=
  if m.any (fun p => p.1 = k) then
    m.map (fun p => if p.1 = k then (k, v) else p)
  else m ++ [(k, v)]

/-- Sequence of `infos[cpu]` lookups; raises `KeyError` at the first core
absent from the dict, as the Python subscript does. -/
def lookupAll (infos : List (Nat × String)) : List Nat → Except PErr (List String)
  | [] => .ok []
  | c :: rest =>
    match lookupV infos c with
    | none => .error .keyError
    | some v => (lookupAll infos rest).map (fun vs => v :: vs)

/-! ## ValueMerger (`_format_cpu_infos`, lines 233-250) -/

/-- Insert into a sorted list of naturals. -/
def insertSorted (n : Nat) : List Nat → List Nat
  | [] => [n]
  | m :: rest => if n ≤ m then n :: m :: rest else m :: insertSorted n rest

/-- Sort a list of naturals ascending. -/
def sortNat (l : List Nat) : List Nat := l.foldr insertSorted []

/-- Collapse a sorted list into maximal runs `(lo, hi)`. -/
def groupRunsAux (a b : Nat) : List Nat → List (Nat × Nat)
  | [] => [(a, b)]
  | n :: rest =>
    if n = b + 1 then groupRunsAux a n rest
    else if n = b then groupRunsAux a b rest
    else (a, b) :: groupRunsAux n n rest

/-- Render one run. -/
def fmtRun (p : Nat × Nat) : String :=
  if p.1 = p.2 then toString p.1 else toString p.1 ++ "-" ++ toString p.2

/-- Modelled from the spec: `perf._format_cpu_list` is code of this repository
that is not under `src/`; the spec describes it as rendering a core set as "a
compact range-list string" (examples: `{0,1}` to `"0-1"`, `{2,3}` to `"2-3"`),
so consecutive cores collapse to `lo-hi` runs joined by commas. -/
def format_cpu_list (cpus : List Nat) : String :=
  match sortNat cpus with
  | [] => ""
  | n :: rest => String.intercalate "," ((groupRunsAux n n rest).map fmtRun)

/-- Per-core branch of `_format_cpu_infos`: one `"<cpu>=<info>"` item per core
of `cpus`, joined by `", "`; Python raises `KeyError` at the first core
missing from `infos`. -/
def perCoreText (infos : List (Nat × String)) (cpus : List Nat) : Except PErr String :=
  (lookupAll infos cpus).map (fun vals =>
    String.intercalate ", " (List.zipWith (fun c v => toString c ++ "=" ++ v) cpus vals))

/-- `_format_cpu_infos(infos, cpus)` (lines 233-250).  `merge` is true when
the dict has as many entries as `cpus` has cores and all looked-up values
agree; otherwise the per-core form is rendered. -/
def format_cpu_infos (infos : List (Nat × String)) (cpus : List Nat) : Except PErr String :=
  if infos.length = cpus.length then
    match lookupAll infos cpus with
    | .error e => .error e
    | .ok vals =>
      if vals.dedup.length = 1 then
        match cpus with
        | [] => .error .indexError
        | c :: _ =>
          match lookupV infos c with
          | none => .error .keyError
          | some v => .ok (format_cpu_list cpus ++ "=" ++ v)
      else perCoreText infos cpus
  else perCoreText infos cpus

/-! ## CpuIdentity (`_collect_cpu_freq`, lines 253-270; model name, lines 100-105) -/

/-- State of the `/proc/cpuinfo` scan: the tracked current core and the
`cpu_freq` dict built so far. -/
structure FreqState where
  current : Option Nat
  freq : List (Nat × String)
  deriving DecidableEq, Repr

/-- One line of the `_collect_cpu_freq` scan.  `cpus` is the (deduplicated)
core set; a `processor` line re-targets the tracked core, a `cpu MHz` line
under a tracked core records `"<n> MHz"`. -/
def freqStep (cpus : List Nat) (st : FreqState) (line : String) : Except PErr FreqState :=
  if startsWithStr "processor" line then
    match parseIntPy (pyStrip (pyAfterColon line)) with
    | none => .error .valueError
    | some i =>
      .ok { st with current := if 0 ≤ i ∧ i.toNat ∈ cpus then some i.toNat else none }
  else if startsWithStr "cpu MHz" line then
    match st.current with
    | none => .ok st
    | some c =>
      match parseFloatPy (pyStrip (pyAfterColon line)) with
      | none => .error .valueError
      | some q =>
        .ok { st with freq := setKey st.freq c (toString (roundHalfEvenD q.1 q.2) ++ " MHz") }
  else .ok st

/-- Fold `freqStep` over the store lines. -/
def freqFold (cpus : List Nat) : FreqState → List String → Except PErr FreqState
  | st, [] => .ok st
  | st, l :: rest =>
    match freqStep cpus st l with
    | .error e => .error e
    | .ok st' => freqFold cpus st' rest

/-- `_collect_cpu_freq`'s scan: `cpus = set(cpus)` then the per-line state
machine; returns the `cpu_freq` dict. -/
def collect_cpu_freq (cores : List Nat) (lines : List String) : Except PErr (List (Nat × String)) :=
  (freqFold cores.dedup ⟨none, []⟩ lines).map (fun st => st.freq)

/-- `model name` extraction of `_collect_linux_metadata` (lines 100-105):
first `model name` line, text after the first colon (`[1]`, so a missing
colon raises `IndexError`), stripped; empty means no fact. -/
def collect_model_name : List String → Except PErr (Option String)
  | [] => .ok none
  | l :: rest =>
    if startsWithStr "model name" l then
      match pyIndex1Colon l with
      | .error e => .error e
      | .ok v => .ok (if pyStrip v = "" then none else some (pyStrip v))
    else collect_model_name rest

/-! ## CpuPowerState and CpuGovernor (`_get_cpu_config`, lines 278-310) -/

/-- Values the per-core config probe reads, after `_first_line`'s
`default=''` handling: missing files appear as `""`. -/
structure CpuEnv where
  driver : String
  noTurbo : String
  governor : String
  outcome : ToolOutcome

/-- `', '.join(info)` guarded by `if not info:` -/
def mkConfig (l : List String) : Option String :=
  if l = [] then none else some (String.intercalate ", " l)

/-- `governor:` fragment. -/
def govFrag (g : String) : List String :=
  if g ≠ "" then ["governor:" ++ g] else []

/-- `_get_cpu_config(cpu)` (lines 278-310), with the tool state threaded
through the `_get_cpu_boost` delegation.  Note the source's misspelling
`'boost:not suppported'` at line 300. -/
def get_cpu_config (e : CpuEnv) (st : ToolState) : ToolState × Except PErr (Option String) :=
  let info0 : List String := if e.driver ≠ "" then ["driver:" ++ e.driver] else []
  if e.driver = "intel_pstate" then
    let info1 := info0 ++
      (if e.noTurbo = "1" then ["intel_pstate:no turbo"]
       else if e.noTurbo = "0" then ["intel_pstate:turbo"] else [])
    (st, .ok (mkConfig (info1 ++ govFrag e.governor)))
  else
    match run_cpu_boost st e.outcome with
    | (st', .error er) => (st', .error er)
    | (st', .ok b) =>
      let info1 := info0 ++
        (match b with
         | some true => ["boost:supported"]
         | some false => ["boost:not suppported"]
         | none => [])
      (st', .ok (mkConfig (info1 ++ govFrag e.governor)))

/-! ## ThermalProbe (`_get_cpu_temperature(s)`, lines 324-364) -/

/-- One `hwmon` device directory: `name` is the first line of its `name` file
(`""` when missing, per `default=''`); `labels` are the first lines of the
consecutive files `temp1_label, temp2_label, ...` that exist (the scan stops
at the first missing index); `input i` is the first line of `temp<i>_input`,
`none` when that file is missing. -/
structure HwmonDevice where
  name : String
  labels : List String
  input : Nat → Option String

/-- Inner loop of `_get_cpu_temperature`: only the `temp<i>_label` read is
guarded by `try/except IOError`; a missing `temp<i>_input` raises. -/
def scanTemps (d : HwmonDevice) : Nat → List String → Except PErr (List String)
  | _, [] => .ok []
  | i, label :: rest =>
    match d.input i with
    | none => .error .ioError
    | some s =>
      match parseFloatPy s with
      | none => .error .valueError
      | some q =>
        let item := d.name ++ ":" ++ label ++ "=" ++ toString (roundHalfEvenD q.1 (q.2 + 3)) ++ " C"
        (scanTemps d (i + 1) rest).map (fun its => item :: its)

/-- `_get_cpu_temperature(path, cpu_temp)` (lines 324-347) for one device. -/
def get_cpu_temperature (d : HwmonDevice) : Except PErr (List String) :=
  if startsWithStr "coretemp" d.name then scanTemps d 1 d.labels else .ok []

/-- Loop of `_get_cpu_temperatures` over the device directories. -/
def tempsLoop : List HwmonDevice → Except PErr (List String)
  | [] => .ok []
  | d :: rest =>
    match get_cpu_temperature d with
    | .error e => .error e
    | .ok its => (tempsLoop rest).map (fun more => its ++ more)

/-! ## AffinityResolver (`_collect_cpu_affinity`, lines 367-382) -/

/-- Python `set(a) == set(b)`. -/
def listSetEq (a b : List Nat) : Bool :=
  a.all (fun x => x ∈ b) && b.all (fun x => x ∈ a)

/-- `_collect_cpu_affinity` as a pure description: `none` models the early
returns (no fact written), `some text` the written `cpu_affinity` value.
`isolated` stands for `perf._get_isolated_cpus()`, which is code of this
repository not under `src/`; modelled from the spec as an injected CoreSet
(kernel-reported isolated cores, empty when unavailable), and
`perf._format_cpu_list` is the spec-modelled `format_cpu_list`. -/
def collect_cpu_affinity (aff : Option (List Nat)) (count : Option Nat)
    (isolated : List Nat) : Option String :=
  match aff with
  | none => none
  | some l =>
    if l = [] then none
    else
      match count with
      | none => none
      | some n =>
        if n = 0 then none
        else if listSetEq l (List.range n) then none
        else
          let text := format_cpu_list l
          if isolated ≠ [] ∧ (∀ c ∈ l, c ∈ isolated) then some (text ++ " (isolated)")
          else some text

/-! ## CpuMetadataCollector (`_collect_cpu_metadata`, lines 385-402) -/

/-- A metadata value.  Line 389 writes the logical core count itself, so
values are not uniformly strings. -/
inductive FactVal where
  | str (s : String)
  | int (n : Nat)
  deriving DecidableEq, Repr

/-- Whether a fact value is a string. -/
def FactVal.isStr : FactVal → Bool
  | .str _ => true
  | .int _ => false

/-- `_get_logical_cpu_count` (lines 131-151): the backend chain is modelled
as one injected raw result; a non-positive count becomes `None`. -/
def get_logical_cpu_count (raw : Option Int) : Option Nat :=
  match raw with
  | none => none
  | some n => if n < 1 then none else some n.toNat

/-- The dynamic type of the Python variable `all_cpus` at line 398: either
the affinity set of core ids, or the bare integer returned by
`_get_logical_cpu_count` (the fallback at line 396 assigns the count itself,
not a range). -/
inductive Scope where
  | cpuSet (l : List Nat)
  | cnt (n : Nat)
  deriving DecidableEq, Repr

/-- Fallback of line 396: `all_cpus = _get_logical_cpu_count()`. -/
def scopeFallback (count : Option Nat) : Option Scope :=
  match count with
  | none => none
  | some n => if n = 0 then none else some (.cnt n)

/-- Lines 394-398: `all_cpus = cpu_affinity; if not all_cpus: all_cpus =
_get_logical_cpu_count(); if all_cpus:` — `none` models a falsy `all_cpus`. -/
def effScope (aff : Option (List Nat)) (count : Option Nat) : Option Scope :=
  match aff with
  | some l => if l = [] then scopeFallback count else some (.cpuSet l)
  | none => scopeFallback count

/-- Everything the probes read, injected: the raw backend core count, the
affinity query result, the flat `/proc/cpuinfo` store, the per-core `/sys`
values (post-`default=''`), the per-core tool behaviour, the isolated-cores
list and the `hwmon` tree (`none` when `listdir` fails). -/
structure MetaEnv where
  cpuCountRaw : Option Int
  affinity : Option (List Nat)
  cpuinfo : List String
  driver : Nat → String
  noTurbo : String
  governor : Nat → String
  outcomes : Nat → ToolOutcome
  isolated : List Nat
  hwmon : Option (List HwmonDevice)

/-- Fact written by the `cpu_count` step (line 388-389): the integer itself. -/
def countFact (cc : Option Nat) : List (String × FactVal) :=
  match cc with
  | some n => [("cpu_count", FactVal.int n)]
  | none => []

/-- Fact written by `_collect_cpu_affinity`. -/
def affinityFact (aff : Option (List Nat)) (cc : Option Nat) (isolated : List Nat) :
    List (String × FactVal) :=
  match collect_cpu_affinity aff cc isolated with
  | some t => [("cpu_affinity", FactVal.str t)]
  | none => []

/-- `_collect_cpu_freq(metadata, all_cpus)` for a genuine core set: scan,
skip when the dict is empty, else format (which may raise `KeyError`). -/
def freqFact (cores : List Nat) (lines : List String) :
    Except PErr (List (String × FactVal)) :=
  match collect_cpu_freq cores lines with
  | .error e => .error e
  | .ok m =>
    if m = [] then .ok []
    else (format_cpu_infos m cores.dedup).map (fun s => [("cpu_freq", FactVal.str s)])

/-- Loop of `_collect_cpu_config` (lines 313-318): build the `configs` dict,
threading the tool state; a raised `ValueError` aborts the loop. -/
def configLoop (env : MetaEnv) : List Nat → ToolState → ToolState × Except PErr (List (Nat × String))
  | [], st => (st, .ok [])
  | c :: rest, st =>
    match get_cpu_config ⟨env.driver c, env.noTurbo, env.governor c, env.outcomes c⟩ st with
    | (st', .error e) => (st', .error e)
    | (st', .ok none) => configLoop env rest st'
    | (st', .ok (some s)) =>
      if s = "" then configLoop env rest st'
      else
        match configLoop env rest st' with
        | (st2, .error e) => (st2, .error e)
        | (st2, .ok cs) => (st2, .ok ((c, s) :: cs))

/-- `_collect_cpu_config(metadata, cpus)` (lines 313-321). -/
def configFact (env : MetaEnv) (cpus : List Nat) (st : ToolState) :
    ToolState × Except PErr (List (String × FactVal)) :=
  match configLoop env cpus st with
  | (st', .error e) => (st', .error e)
  | (st', .ok configs) =>
    if configs = [] then (st', .ok [])
    else
      match format_cpu_infos configs cpus with
      | .error e => (st', .error e)
      | .ok s => (st', .ok [("cpu_config", FactVal.str s)])

/-- `_get_cpu_temperatures(metadata)` (lines 350-364). -/
def tempFact (hw : Option (List HwmonDevice)) : Except PErr (List (String × FactVal)) :=
  match hw with
  | none => .ok []
  | some devs =>
    match tempsLoop devs with
    | .error e => .error e
    | .ok items =>
      if items = [] then .ok []
      else .ok [("cpu_temp", FactVal.str (String.intercalate ", " items))]

/-- Final step of the collector: thermal readings. -/
def finishTemps (md : List (String × FactVal)) (st : ToolState)
    (hw : Option (List HwmonDevice)) :
    List (String × FactVal) × ToolState × Option PErr :=
  match tempFact hw with
  | .error e => (md, st, some e)
  | .ok mdT => (md ++ mdT, st, none)

/-- `_collect_cpu_metadata(metadata)` (lines 385-402): facts written in
order, final tool state, and the exception (if any) that aborted the call;
facts written before an exception are kept, mirroring in-place dict
mutation.  When the probing scope is the bare integer count, `set(all_cpus)`
inside `_collect_cpu_freq` raises `TypeError`. -/
def collect_cpu_metadata (env : MetaEnv) (st : ToolState) :
    List (String × FactVal) × ToolState × Option PErr :=
  let cc := get_logical_cpu_count env.cpuCountRaw
  let md := countFact cc ++ affinityFact env.affinity cc env.isolated
  match effScope env.affinity cc with
  | none => finishTemps md st env.hwmon
  | some (.cnt _) => (md, st, some .typeError)
  | some (.cpuSet l) =>
    match freqFact l env.cpuinfo with
    | .error e => (md, st, some e)
    | .ok mdF =>
      match configFact env l st with
      | (st', .error e) => (md ++ mdF, st', some e)
      | (st', .ok mdC) => finishTemps (md ++ mdF ++ mdC) st' env.hwmon

/-! ## Helper lemmas -/

theorem lookupV_eq_none {m : List (Nat × String)} {k : Nat} :
    lookupV m k = none ↔ k ∉ m.map Prod.fst := by
  induction m with
  | nil => simp [lookupV]
  | cons p t ih =>
    by_cases h : p.1 = k
    · simp [lookupV, List.find?, h]
    · simpa [lookupV, List.find?, h, Ne.symm h] using ih

theorem lookupAll_err {infos : List (Nat × String)} {c : Nat} :
    ∀ {S : List Nat}, c ∈ S → lookupV infos c = none →
      lookupAll infos S = .error .keyError := by
  intro S
  induction S with
  | nil => intro hc; cases hc
  | cons a t ih =>
    intro hc hmiss
    rcases List.mem_cons.mp hc with rfl | hmem
    · simp [lookupAll, hmiss]
    · cases hv : lookupV infos a
      · simp [lookupAll, hv]
      · simp [lookupAll, hv, ih hmem hmiss, Except.map]

theorem lookupAll_ok {infos : List (Nat × String)} {f : Nat → String} :
    ∀ {S : List Nat}, (∀ c ∈ S, lookupV infos c = some (f c)) →
      lookupAll infos S = .ok (S.map f) := by
  intro S
  induction S with
  | nil => intro _; rfl
  | cons a t ih =>
    intro h
    have ha := h a (List.mem_cons_self a t)
    have ht := ih (fun c hc => h c (List.mem_cons_of_mem a hc))
    simp [lookupAll, ha, ht, Except.map]

theorem dedup_const {v : String} :
    ∀ {l : List String}, (∀ x ∈ l, x = v) → l ≠ [] → l.dedup = [v] := by
  intro l
  induction l with
  | nil => intro _ h; cases h rfl
  | cons a t ih =>
    intro hall _
    have ha : a = v := hall a (List.mem_cons_self a t)
    by_cases ht : t = []
    · subst ht ha; simp
    · have htail : t.dedup = [v] := ih (fun x hx => hall x (List.mem_cons_of_mem a hx)) ht
      have hv : a ∈ t := by
        cases t with
        | nil => exact absurd rfl ht
        | cons b u =>
          have hb : b = v := hall b (by simp)
          rw [ha, ← hb]
          exact List.mem_cons_self b u
      rw [List.dedup_cons_of_mem hv, htail]

theorem dedup_len_ne_one {l : List String} {a b : String}
    (ha : a ∈ l) (hb : b ∈ l) (hne : a ≠ b) : l.dedup.length ≠ 1 := by
  intro h
  obtain ⟨x, hx⟩ := List.length_eq_one.mp h
  have ha' : a ∈ l.dedup := List.mem_dedup.mpr ha
  have hb' : b ∈ l.dedup := List.mem_dedup.mpr hb
  rw [hx] at ha' hb'
  simp only [List.mem_singleton] at ha' hb'
  exact hne (ha'.trans hb'.symm)

theorem zipWith_self_map (g : Nat → String → String) (f : Nat → String) :
    ∀ S : List Nat, List.zipWith g S (S.map f) = S.map (fun c => g c (f c)) := by
  intro S
  induction S with
  | nil => rfl
  | cons a t ih => simp [ih]

/-! ## Claims -/

/-- C1 (counterexample): with `V = {0 ↦ "a"}` and `S = {0, 1}`, a strict
subset of coverage, `_format_cpu_infos` does not return the per-core form
omitting the absent core (which would be `"0=a"`); it raises `KeyError`. -/
theorem claim_C1_cex : format_cpu_infos [(0, "a")] [0, 1] = .error .keyError := by rfl

/-- C1 (amended): for every core set `S` and per-core mapping `V` whose key
set is a strict subset of `S`, `ValueMerger.format` never merges, but it does
not return the per-core form omitting absent cores either: the per-core
rendering looks up every core of `S` and raises `KeyError` at the first core
absent from `V`. -/
theorem claim_C1 (V : List (Nat × String)) (S : List Nat)
    (hndV : (V.map Prod.fst).Nodup)
    (hsub : ∀ k ∈ V.map Prod.fst, k ∈ S)
    (c : Nat) (hc : c ∈ S) (hmiss : lookupV V c = none) :
    format_cpu_infos V S = .error .keyError := by
  have hcn : c ∉ V.map Prod.fst := lookupV_eq_none.mp hmiss
  have hsub' : V.map Prod.fst ⊆ S.erase c := by
    intro k hk
    have hkc : k ≠ c := by
      intro h
      rw [h] at hk
      exact hcn hk
    exact (List.mem_erase_of_ne hkc).mpr (hsub k hk)
  have hlen : V.length < S.length := by
    have h1 : (V.map Prod.fst).length ≤ (S.erase c).length :=
      (List.subperm_of_subset hndV hsub').length_le
    have h2 : (S.erase c).length = S.length - 1 := List.length_erase_of_mem hc
    have h3 : 0 < S.length := List.length_pos.mpr (List.ne_nil_of_mem hc)
    rw [List.length_map] at h1
    omega
  have hne : ¬(V.length = S.length) := Nat.ne_of_lt hlen
  unfold format_cpu_infos
  rw [if_neg hne]
  unfold perCoreText
  rw [lookupAll_err hc hmiss]
  rfl

/-- C1 (witness): concrete instance of the amended claim. -/
theorem claim_C1_wit : format_cpu_infos [(0, "v"), (2, "v")] [0, 1, 2] = .error .keyError :=
  claim_C1 [(0, "v"), (2, "v")] [0, 1, 2] (by decide) (by decide) 1 (by decide) (by decide)

/-- C6: when `V` covers exactly `S` (one entry per core): with identical
values the result is the merged `"<rangeOf(S)>=<value>"`; with at least two
distinct values it is the `", "`-join of exactly `|S|` items `"core=value"`,
one per core of `S`, in `S`'s iteration order. -/
theorem claim_C6 (V : List (Nat × String)) (S : List Nat) (hlen : V.length = S.length) :
    (∀ v : String, S ≠ [] → (∀ c ∈ S, lookupV V c = some v) →
       format_cpu_infos V S = .ok (format_cpu_list S ++ "=" ++ v)) ∧
    (∀ f : Nat → String, (∀ c ∈ S, lookupV V c = some (f c)) →
       (∃ c₁ ∈ S, ∃ c₂ ∈ S, f c₁ ≠ f c₂) →
       format_cpu_infos V S =
           .ok (String.intercalate ", " (S.map (fun c => toString c ++ "=" ++ f c))) ∧
         (S.map (fun c => toString c ++ "=" ++ f c)).length = S.length) := by
  constructor
  · intro v hS hval
    have hall : lookupAll V S = .ok (S.map (fun _ => v)) := lookupAll_ok hval
    have hded : (S.map (fun _ => v)).dedup = [v] :=
      dedup_const (by simp) (by simpa using hS)
    unfold format_cpu_infos
    rw [if_pos hlen, hall]
    cases S with
    | nil => cases hS rfl
    | cons c t =>
      have hc := hval c (List.mem_cons_self c t)
      simp only [List.map_const', List.length_cons] at hded ⊢
      simp [hded, hc]
  · intro f hval ⟨c₁, hc₁, c₂, hc₂, hfne⟩
    have hall : lookupAll V S = .ok (S.map f) := lookupAll_ok hval
    have hded : (S.map f).dedup.length ≠ 1 :=
      dedup_len_ne_one (List.mem_map_of_mem f hc₁) (List.mem_map_of_mem f hc₂) hfne
    refine ⟨?_, by simp⟩
    unfold format_cpu_infos
    rw [if_pos hlen, hall]
    simp [hded, perCoreText, hall, Except.map, zipWith_self_map]

theorem parse_skip_false {r : List String} :
    ∀ {A : List String}, (∀ a ∈ A, containsStr "boost state support" a = false) →
      parseCpupowerLoop false (A ++ r) = parseCpupowerLoop false r := by
  intro A
  induction A with
  | nil => intro _; rfl
  | cons a t ih =>
    intro h
    have ha := h a (List.mem_cons_self a t)
    have ht := ih (fun x hx => h x (List.mem_cons_of_mem a hx))
    simp [parseCpupowerLoop, ha, ht]

theorem parse_skip_true {r : List String} :
    ∀ {B : List String}, (∀ b ∈ B, containsStr "Supported:" b = false) →
      parseCpupowerLoop true (B ++ r) = parseCpupowerLoop true r := by
  intro B
  induction B with
  | nil => intro _; rfl
  | cons b t ih =>
    intro h
    have hb := h b (List.mem_cons_self b t)
    have ht := ih (fun x hx => h x (List.mem_cons_of_mem b hx))
    simp [parseCpupowerLoop, hb, ht]

theorem parse_step_marker {s : String} {r : List String}
    (h : containsStr "boost state support" s = true) :
    parseCpupowerLoop false (s :: r) = parseCpupowerLoop true r := by
  simp [parseCpupowerLoop, h]

theorem parse_step_supported {t : String} {r : List String}
    (h : containsStr "Supported:" t = true) :
    parseCpupowerLoop true (t :: r) =
      (if pyStrip (pyAfterColon t) = "no" then .ok false
       else if pyStrip (pyAfterColon t) = "yes" then .ok true
       else .error .valueError) := by
  simp [parseCpupowerLoop, h]

theorem parse_no_marker :
    ∀ {lines : List String}, (∀ l ∈ lines, containsStr "boost state support" l = false) →
      parseCpupowerLoop false lines = .error .valueError := by
  intro lines
  induction lines with
  | nil => intro _; rfl
  | cons a t ih =>
    intro h
    have ha := h a (List.mem_cons_self a t)
    have ht := ih (fun x hx => h x (List.mem_cons_of_mem a hx))
    simp [parseCpupowerLoop, ha, ht]

/-- C7: on a successful tool exit, the output parser returns true when the
"boost state support" section is followed by a "Supported:" line whose value
is `yes`, false when that value is `no`, raises `ParseError` (Python
`ValueError`) when the value is anything else, and raises `ParseError` when
no such section is present at all. -/
theorem claim_C7 :
    (∀ A B C : List String, ∀ s t : String,
       (∀ a ∈ A, containsStr "boost state support" a = false) →
       containsStr "boost state support" s = true →
       (∀ b ∈ B, containsStr "Supported:" b = false) →
       containsStr "Supported:" t = true →
       pyStrip (pyAfterColon t) = "yes" →
       parse_cpupower (A ++ s :: (B ++ t :: C)) = .ok true) ∧
    (∀ A B C : List String, ∀ s t : String,
       (∀ a ∈ A, containsStr "boost state support" a = false) →
       containsStr "boost state support" s = true →
       (∀ b ∈ B, containsStr "Supported:" b = false) →
       containsStr "Supported:" t = true →
       pyStrip (pyAfterColon t) = "no" →
       parse_cpupower (A ++ s :: (B ++ t :: C)) = .ok false) ∧
    (∀ A B C : List String, ∀ s t : String,
       (∀ a ∈ A, containsStr "boost state support" a = false) →
       containsStr "boost state support" s = true →
       (∀ b ∈ B, containsStr "Supported:" b = false) →
       containsStr "Supported:" t = true →
       pyStrip (pyAfterColon t) ≠ "yes" → pyStrip (pyAfterColon t) ≠ "no" →
       parse_cpupower (A ++ s :: (B ++ t :: C)) = .error .valueError) ∧
    (∀ lines : List String,
       (∀ l ∈ lines, containsStr "boost state support" l = false) →
       parse_cpupower lines = .error .valueError) := by
  refine ⟨?_, ?_, ?_, ?_⟩
  · intro A B C s t hA hs hB ht hv
    unfold parse_cpupower
    rw [parse_skip_false hA, parse_step_marker hs, parse_skip_true hB,
      parse_step_supported ht, hv]
    rfl
  · intro A B C s t hA hs hB ht hv
    unfold parse_cpupower
    rw [parse_skip_false hA, parse_step_marker hs, parse_skip_true hB,
      parse_step_supported ht, hv]
    rfl
  · intro A B C s t hA hs hB ht hy hn
    unfold parse_cpupower
    rw [parse_skip_false hA, parse_step_marker hs, parse_skip_true hB,
      parse_step_supported ht]
    simp [hy, hn]
  · intro lines h
    exact parse_no_marker h

/-- C7 (witness): concrete `cpupower` outputs for all four behaviours. -/
theorem claim_C7_wit :
    parse_cpupower ["analyzing CPU 0:", "  boost state support:", "    Active: yes",
      "    Supported: yes"] = .ok true ∧
    parse_cpupower ["  boost state support:", "    Supported: no"] = .ok false ∧
    parse_cpupower ["  boost state support:", "    Supported: maybe"] = .error .valueError ∧
    parse_cpupower ["analyzing CPU 0:", "  hardware limits: 1.20 GHz"] = .error .valueError := by
  refine ⟨?_, ?_, ?_, ?_⟩
  · exact claim_C7.1 ["analyzing CPU 0:"] ["    Active: yes"] []
      "  boost state support:" "    Supported: yes"
      (by decide) (by decide) (by decide) (by decide) (by decide)
  · exact claim_C7.2.1 [] [] [] "  boost state support:" "    Supported: no"
      (by decide) (by decide) (by decide) (by decide) (by decide)
  · exact claim_C7.2.2.1 [] [] [] "  boost state support:" "    Supported: maybe"
      (by decide) (by decide) (by decide) (by decide) (by decide) (by decide)
  · exact claim_C7.2.2.2 ["analyzing CPU 0:", "  hardware limits: 1.20 GHz"] (by decide)

theorem runTool_disabled {st : ToolState} {oc : ToolOutcome} (h : st.working = false) :
    run_cpu_boost st oc = (st, .ok none) := by
  simp [run_cpu_boost, h]

theorem toolSeq_frozen {st : ToolState} (h : st.working = false) :
    ∀ ocs : List ToolOutcome, runToolSeq st ocs = st := by
  intro ocs
  induction ocs with
  | nil => rfl
  | cons oc rest ih =>
    show runToolSeq (run_cpu_boost st oc).1 rest = st
    rw [runTool_disabled h]
    exact ih

/-- C3 (counterexample): an invocation that exits successfully but produces
unparsable output is a failed invocation, yet it leaves `working = true`
(the claim requires `enabled = false` after any failure), and a second call
does launch again: the launch count across two such calls is 2, not 1. -/
theorem claim_C3_cex :
    run_cpu_boost ⟨true, 0⟩ (.exitOk ["junk"]) = (⟨true, 1⟩, .error .valueError) ∧
    (runToolSeq ⟨true, 0⟩ [.exitOk ["junk"], .exitOk ["junk"]]).launches = 2 := by
  exact ⟨by rfl, by rfl⟩

/-- C3 (amended): the enabled flag starts true; it is set to false the first
time the tool fails to launch or exits non-zero, and is never reset; an
unparsable successful invocation raises `ParseError` and leaves the flag
true.  Once false, every later call returns none immediately, the state
never changes (so no launch happens), and after a launch failure or
non-zero exit the launch count stays 1 forever. -/
theorem claim_C3 :
    initToolState.working = true ∧
    (∀ (st : ToolState) (oc : ToolOutcome), st.working = false →
       run_cpu_boost st oc = (st, .ok none)) ∧
    (∀ st : ToolState, st.working = true →
       (run_cpu_boost st .launchFail).1.working = false ∧
       (run_cpu_boost st .exitNonzero).1.working = false) ∧
    (∀ (st : ToolState) (lines : List String), st.working = true →
       (run_cpu_boost st (.exitOk lines)).1.working = true) ∧
    (∀ (st : ToolState) (ocs : List ToolOutcome), st.working = false →
       runToolSeq st ocs = st) ∧
    (∀ (oc : ToolOutcome) (ocs : List ToolOutcome),
       (oc = ToolOutcome.launchFail ∨ oc = ToolOutcome.exitNonzero) →
       (runToolSeq initToolState (oc :: ocs)).launches = 1) := by
  refine ⟨rfl, ?_, ?_, ?_, ?_, ?_⟩
  · intro st oc h
    exact runTool_disabled h
  · intro st h
    constructor <;> simp [run_cpu_boost, h]
  · intro st lines h
    unfold run_cpu_boost
    rw [h]
    cases hp : parse_cpupower lines <;> simp [hp, h]
  · intro st ocs h
    exact toolSeq_frozen h ocs
  · intro oc ocs hoc
    have hstep : (run_cpu_boost initToolState oc).1 = ⟨false, 1⟩ := by
      rcases hoc with rfl | rfl <;> rfl
    show (runToolSeq (run_cpu_boost initToolState oc).1 ocs).launches = 1
    rw [hstep, toolSeq_frozen rfl ocs]

/-- C3 (witness): concrete instances of the amended claim's conjuncts. -/
theorem claim_C3_wit :
    run_cpu_boost ⟨false, 1⟩ .launchFail = (⟨false, 1⟩, .ok none) ∧
    (run_cpu_boost ⟨true, 0⟩ .launchFail).1.working = false ∧
    (run_cpu_boost ⟨true, 0⟩ (.exitOk ["junk"])).1.working = true ∧
    runToolSeq ⟨false, 1⟩ [.exitOk ["x"], .launchFail] = ⟨false, 1⟩ ∧
    (runToolSeq initToolState [.launchFail, .exitOk ["x"]]).launches = 1 :=
  ⟨claim_C3.2.1 ⟨false, 1⟩ .launchFail rfl,
   (claim_C3.2.2.1 ⟨true, 0⟩ rfl).1,
   claim_C3.2.2.2.1 ⟨true, 0⟩ ["junk"] rfl,
   claim_C3.2.2.2.2.1 ⟨false, 1⟩ [.exitOk ["x"], .launchFail] rfl,
   claim_C3.2.2.2.2.2 .launchFail [.exitOk ["x"]] (Or.inl rfl)⟩

theorem lookup_map_subst {k : Nat} {v : String} :
    ∀ {m : List (Nat × String)}, m.any (fun p => p.1 = k) = true →
      lookupV (m.map (fun p => if p.1 = k then (k, v) else p)) k = some v := by
  intro m
  induction m with
  | nil => intro h; simp at h
  | cons p t ih =>
    intro h
    by_cases hp : p.1 = k
    · simp [lookupV, List.find?, hp]
    · have ht : t.any (fun p => p.1 = k) = true := by
        simp only [List.any_cons, hp] at h
        simpa using h
      simpa [lookupV, List.find?, hp] using ih ht

theorem lookup_append_missing {k : Nat} {v : String} :
    ∀ {m : List (Nat × String)}, m.any (fun p => p.1 = k) = false →
      lookupV (m ++ [(k, v)]) k = some v := by
  intro m
  induction m with
  | nil => intro _; simp [lookupV, List.find?]
  | cons p t ih =>
    intro h
    simp only [List.any_cons, Bool.or_eq_false_iff] at h
    have hp : (p.1 = k) = False := by
      simpa using h.1
    simpa [lookupV, List.find?, hp] using ih h.2

theorem lookupV_setKey (m : List (Nat × String)) (k : Nat) (v : String) :
    lookupV (setKey m k v) k = some v := by
  unfold setKey
  by_cases h : m.any (fun p => p.1 = k) = true
  · rw [if_pos h]
    exact lookup_map_subst h
  · rw [if_neg h]
    exact lookup_append_missing (Bool.eq_false_iff.mpr h)

theorem mem_keys_setKey {m : List (Nat × String)} {k k' : Nat} {v : String}
    (h : k' ∈ (setKey m k v).map Prod.fst) : k' = k ∨ k' ∈ m.map Prod.fst := by
  unfold setKey at h
  by_cases ha : m.any (fun p => p.1 = k) = true
  · rw [if_pos ha] at h
    rw [List.map_map] at h
    obtain ⟨p, hp, hfst⟩ := List.mem_map.mp h
    by_cases hk : p.1 = k
    · left
      simpa [Function.comp, hk] using hfst.symm
    · right
      rw [List.mem_map]
      refine ⟨p, hp, ?_⟩
      simpa [Function.comp, hk] using hfst
  · rw [if_neg ha, List.map_append] at h
    rcases List.mem_append.mp h with hm | hk
    · exact Or.inr hm
    · left
      simpa using hk

/-- Invariant of the `/proc/cpuinfo` scan: recorded keys and the tracked
core always belong to the probed core set. -/
def freqInv (cpus : List Nat) (st : FreqState) : Prop :=
  (∀ k ∈ st.freq.map Prod.fst, k ∈ cpus) ∧ (∀ c, st.current = some c → c ∈ cpus)

theorem freqStep_inv {cpus : List Nat} {st st' : FreqState} {line : String}
    (hinv : freqInv cpus st) (h : freqStep cpus st line = .ok st') : freqInv cpus st' := by
  unfold freqStep at h
  by_cases h1 : startsWithStr "processor" line = true
  · rw [if_pos h1] at h
    cases hp : parseIntPy (pyStrip (pyAfterColon line)) with
    | none => rw [hp] at h; cases h
    | some i =>
      rw [hp] at h
      cases h
      refine ⟨hinv.1, ?_⟩
      intro c hc
      by_cases hcond : 0 ≤ i ∧ i.toNat ∈ cpus
      · simp only [if_pos hcond] at hc
        cases hc
        exact hcond.2
      · simp only [if_neg hcond] at hc
        cases hc
  · rw [if_neg h1] at h
    by_cases h2 : startsWithStr "cpu MHz" line = true
    · rw [if_pos h2] at h
      cases hcur : st.current with
      | none => rw [hcur] at h; cases h; exact hinv
      | some c =>
        rw [hcur] at h
        cases hq : parseFloatPy (pyStrip (pyAfterColon line)) with
        | none => rw [hq] at h; cases h
        | some q =>
          rw [hq] at h
          cases h
          constructor
          · intro k hk
            rcases mem_keys_setKey hk with rfl | hm
            · exact hinv.2 k hcur
            · exact hinv.1 k hm
          · intro c1 hc1
            cases hc1
            exact hinv.2 _ hcur
    · rw [if_neg h2] at h
      cases h
      exact hinv

theorem freqFold_inv {cpus : List Nat} {st' : FreqState} :
    ∀ {lines : List String} {st : FreqState}, freqInv cpus st →
      freqFold cpus st lines = .ok st' → freqInv cpus st' := by
  intro lines
  induction lines with
  | nil =>
    intro st hinv h
    cases h
    exact hinv
  | cons l rest ih =>
    intro st hinv h
    unfold freqFold at h
    cases hs : freqStep cpus st l with
    | error e => rw [hs] at h; cases h
    | ok st1 =>
      rw [hs] at h
      exact ih (freqStep_inv hinv hs) h

/-- C8: the `/proc/cpuinfo` scan is a state machine: a `processor` line
re-targets the tracked core to the parsed id when it is in the probed core
set and to none otherwise; a `cpu MHz` line under a tracked core records the
parsed value rounded to the nearest integer as `"<n> MHz"`; a later record
for the same core overwrites the earlier one; and on success the result's
key set is a subset of the probed core set. -/
theorem claim_C8 :
    (∀ (cpus : List Nat) (st : FreqState) (line : String) (n : Int),
       startsWithStr "processor" line = true →
       parseIntPy (pyStrip (pyAfterColon line)) = some n →
       freqStep cpus st line =
         .ok { st with current := if 0 ≤ n ∧ n.toNat ∈ cpus then some n.toNat else none }) ∧
    (∀ (cpus : List Nat) (st : FreqState) (line : String) (c : Nat) (q : Int × Nat),
       startsWithStr "processor" line = false →
       startsWithStr "cpu MHz" line = true →
       st.current = some c →
       parseFloatPy (pyStrip (pyAfterColon line)) = some q →
       freqStep cpus st line =
         .ok { st with freq := setKey st.freq c (toString (roundHalfEvenD q.1 q.2) ++ " MHz") }) ∧
    (∀ (m : List (Nat × String)) (k : Nat) (v : String),
       lookupV (setKey m k v) k = some v) ∧
    (∀ (cores : List Nat) (lines : List String) (m : List (Nat × String)),
       collect_cpu_freq cores lines = .ok m → ∀ k ∈ m.map Prod.fst, k ∈ cores) := by
  refine ⟨?_, ?_, lookupV_setKey, ?_⟩
  · intro cpus st line n h1 h2
    simp [freqStep, h1, h2]
  · intro cpus st line c q h1 h2 h3 h4
    simp [freqStep, h1, h2, h3, h4]
  · intro cores lines m h k hk
    unfold collect_cpu_freq at h
    cases hf : freqFold cores.dedup ⟨none, []⟩ lines with
    | error e => rw [hf] at h; cases h
    | ok stf =>
      rw [hf] at h
      cases h
      have hinv : freqInv cores.dedup ⟨none, []⟩ := by
        constructor
        · intro x hx; cases hx
        · intro c hc; cases hc
      have := (freqFold_inv hinv hf).1 k hk
      exact List.mem_dedup.mp this

/-- C8 (witness): concrete instances — retarget to an in-set core, record a
rounded frequency, overwrite an earlier record, and key-subset on a run. -/
theorem claim_C8_wit :
    freqStep [0, 5] ⟨none, []⟩ "processor\t: 5" = .ok ⟨some 5, []⟩ ∧
    freqStep [0, 5] ⟨some 5, []⟩ "cpu MHz\t\t: 2400.3" = .ok ⟨some 5, [(5, "2400 MHz")]⟩ ∧
    lookupV (setKey [(5, "2400 MHz")] 5 "2500 MHz") 5 = some "2500 MHz" ∧
    (5 : Nat) ∈ [0, 5] := by
  refine ⟨?_, ?_, ?_, ?_⟩
  · have h := claim_C8.1 [0, 5] ⟨none, []⟩ "processor\t: 5" 5 (by decide) (by decide)
    rw [h]
    rfl
  · have h := claim_C8.2.1 [0, 5] ⟨some 5, []⟩ "cpu MHz\t\t: 2400.3" 5 (24003, 1)
      (by decide) (by decide) (by decide) (by decide)
    rw [h]
    rfl
  · exact claim_C8.2.2.1 [(5, "2400 MHz")] 5 "2500 MHz"
  · exact claim_C8.2.2.2 [0, 5] ["processor\t: 5", "cpu MHz\t\t: 2400.3"]
      [(5, "2400 MHz")] (by decide) 5 (by decide)

theorem scanTemps_ok {d : HwmonDevice} :
    ∀ (labels : List String) (i : Nat),
      (∀ j, i ≤ j → j < i + labels.length →
         ∃ (s : String) (p : Int × Nat), d.input j = some s ∧ parseFloatPy s = some p) →
      ∃ items, scanTemps d i labels = .ok items := by
  intro labels
  induction labels with
  | nil => intro i _; exact ⟨[], rfl⟩
  | cons label rest ih =>
    intro i h
    obtain ⟨s, p, hs, hp⟩ := h i (Nat.le_refl i) (by simp)
    obtain ⟨its, hits⟩ := ih (i + 1) (fun j hj1 hj2 => by
      refine h j (by omega) ?_
      simp only [List.length_cons]
      omega)
    refine ⟨(d.name ++ ":" ++ label ++ "=" ++ toString (roundHalfEvenD p.1 (p.2 + 3)) ++ " C")
      :: its, ?_⟩
    simp [scanTemps, hs, hp, hits, Except.map]

/-- C4 (counterexample): a hardware-monitor device where `temp1_label`
exists but `temp1_input` is missing makes the thermal probe raise `IOError`
(the un-guarded `_first_line` call), contradicting "always absorbed, never
propagated". -/
theorem claim_C4_cex :
    get_cpu_temperature ⟨"coretemp", ["Package id 0"], fun _ => none⟩ = .error .ioError := by
  rfl

/-- C4 (amended): `SourceUnavailable` is absorbed for the hwmon root (an
inaccessible root yields no data), for a device whose `name` is not in the
`coretemp` family (skipped without error), and for a missing `temp<i>_label`
(which just ends that device's scan); but when `temp<i>_label` exists and
`temp<i>_input` is missing the probe raises `IOError`, which propagates out
of the collection call.  For devices whose every labelled index has a
readable, parsable input the probe does not raise. -/
theorem claim_C4 :
    tempFact none = .ok [] ∧
    (∀ d : HwmonDevice, startsWithStr "coretemp" d.name = false →
       get_cpu_temperature d = .ok []) ∧
    (∀ d : HwmonDevice,
       (∀ i, 1 ≤ i → i ≤ d.labels.length →
          ∃ (s : String) (p : Int × Nat), d.input i = some s ∧ parseFloatPy s = some p) →
       ∃ items, get_cpu_temperature d = .ok items) := by
  refine ⟨rfl, ?_, ?_⟩
  · intro d h
    simp [get_cpu_temperature, h]
  · intro d h
    by_cases hname : startsWithStr "coretemp" d.name = true
    · obtain ⟨items, hit⟩ := scanTemps_ok d.labels 1 (fun j hj1 hj2 => h j hj1 (by omega))
      exact ⟨items, by simp [get_cpu_temperature, hname, hit]⟩
    · exact ⟨[], by simp [get_cpu_temperature, hname]⟩

/-- C4 (witness): the hwmon-root case, a skipped non-family device, and a
fully readable device (the spec's end-to-end example 3). -/
theorem claim_C4_wit :
    tempFact none = .ok [] ∧
    get_cpu_temperature ⟨"nct6779", ["in0"], fun _ => none⟩ = .ok [] ∧
    (∃ items, get_cpu_temperature ⟨"coretemp", ["Package id 0"], fun _ => some "45000"⟩ =
       .ok items) :=
  ⟨claim_C4.1,
   claim_C4.2.1 ⟨"nct6779", ["in0"], fun _ => none⟩ (by decide),
   claim_C4.2.2 ⟨"coretemp", ["Package id 0"], fun _ => some "45000"⟩
     (fun i h1 h2 => ⟨"45000", (45000, 0), rfl, by decide⟩)⟩

/-- Spec-side assembly of a `cpu_config` item, following the spec's words
with the literal the source actually emits: the boost/turbo description is
`intel_pstate:no turbo`/`intel_pstate:turbo` from the `no_turbo` flag when
the driver is the vendor driver (anything else: no entry), and otherwise
`boost:supported`/`boost:not suppported` (sic) from the tool result, no
entry on none. -/
def boostFragSpec (driver noTurbo : String) (tool : Option Bool) : Option String :=
  if driver = "intel_pstate" then
    if noTurbo = "1" then some "intel_pstate:no turbo"
    else if noTurbo = "0" then some "intel_pstate:turbo"
    else none
  else
    match tool with
    | some true => some "boost:supported"
    | some false => some "boost:not suppported"
    | none => none

/-- Spec-side assembly of the whole item: optional `driver:`, boost/turbo
and `governor:` fragments in that fixed order, joined by `", "`; none when
all are absent. -/
def configSpec (driver : String) (bf : Option String) (gov : String) : Option String :=
  let frags := (if driver = "" then [] else ["driver:" ++ driver]) ++ bf.toList ++
    (if gov = "" then [] else ["governor:" ++ gov])
  if frags = [] then none else some (String.intercalate ", " frags)

/-- One fragment of the (amended) `cpu_config` item grammar. -/
def fragOk (f : String) : Prop :=
  (∃ n, n ≠ "" ∧ f = "driver:" ++ n) ∨
  f = "boost:supported" ∨ f = "boost:not suppported" ∨
  f = "intel_pstate:turbo" ∨ f = "intel_pstate:no turbo" ∨
  (∃ n, n ≠ "" ∧ f = "governor:" ++ n)

theorem config_refine_intel (e : CpuEnv) (st : ToolState) (hd : e.driver = "intel_pstate") :
    get_cpu_config e st =
      (st, .ok (configSpec e.driver (boostFragSpec e.driver e.noTurbo none) e.governor)) := by
  have hne : ¬(e.driver = "") := by rw [hd]; decide
  by_cases h1 : e.noTurbo = "1" <;> by_cases h0 : e.noTurbo = "0" <;>
    simp_all [get_cpu_config, configSpec, boostFragSpec, govFrag, mkConfig]

theorem config_refine_tool (e : CpuEnv) (st : ToolState) (hd : ¬(e.driver = "intel_pstate")) :
    get_cpu_config e st =
      ((run_cpu_boost st e.outcome).1,
       (run_cpu_boost st e.outcome).2.map
         (fun b => configSpec e.driver (boostFragSpec e.driver e.noTurbo b) e.governor)) := by
  rcases hrb : run_cpu_boost st e.outcome with ⟨st', r⟩
  cases r with
  | error er => simp [get_cpu_config, hd, hrb, Except.map]
  | ok b =>
    cases b with
    | none => simp [get_cpu_config, configSpec, boostFragSpec, govFrag, mkConfig, hd, hrb, Except.map]
    | some bv =>
      cases bv <;>
        simp [get_cpu_config, configSpec, boostFragSpec, govFrag, mkConfig, hd, hrb, Except.map]

theorem boostFragSpec_cases {driver noTurbo : String} {tool : Option Bool} {b : String}
    (h : boostFragSpec driver noTurbo tool = some b) :
    b = "boost:supported" ∨ b = "boost:not suppported" ∨
    b = "intel_pstate:turbo" ∨ b = "intel_pstate:no turbo" := by
  unfold boostFragSpec at h
  by_cases hd : driver = "intel_pstate"
  · rw [if_pos hd] at h
    by_cases h1 : noTurbo = "1"
    · rw [if_pos h1] at h
      cases h
      right; right; right; rfl
    · rw [if_neg h1] at h
      by_cases h0 : noTurbo = "0"
      · rw [if_pos h0] at h
        cases h
        right; right; left; rfl
      · rw [if_neg h0] at h
        cases h
  · rw [if_neg hd] at h
    cases tool with
    | none => cases h
    | some bv =>
      cases bv
      · cases h
        right; left; rfl
      · cases h
        left; rfl

theorem configSpec_grammar {driver gov s : String} {bf : Option String}
    (hbf : ∀ b, bf = some b →
       b = "boost:supported" ∨ b = "boost:not suppported" ∨
       b = "intel_pstate:turbo" ∨ b = "intel_pstate:no turbo")
    (h : configSpec driver bf gov = some s) :
    ∃ frags : List String, frags ≠ [] ∧ s = String.intercalate ", " frags ∧
      ∀ f ∈ frags, fragOk f := by
  unfold configSpec at h
  by_cases hfe : ((if driver = "" then [] else ["driver:" ++ driver]) ++ bf.toList ++
      (if gov = "" then [] else ["governor:" ++ gov])) = []
  · rw [if_pos hfe] at h
    cases h
  · rw [if_neg hfe] at h
    refine ⟨_, hfe, (Option.some_inj.mp h).symm, ?_⟩
    intro f hf
    simp only [List.mem_append] at hf
    rcases hf with (hfd | hfb) | hfg
    · by_cases hd : driver = ""
      · rw [if_pos hd] at hfd
        simp at hfd
      · rw [if_neg hd] at hfd
        simp only [List.mem_singleton] at hfd
        subst hfd
        exact Or.inl ⟨driver, hd, rfl⟩
    · cases hb : bf with
      | none =>
        rw [hb] at hfb
        simp [Option.toList] at hfb
      | some b =>
        rw [hb] at hfb
        simp only [Option.toList, List.mem_singleton] at hfb
        subst hfb
        rcases hbf f hb with h1 | h1 | h1 | h1
        · exact Or.inr (Or.inl h1)
        · exact Or.inr (Or.inr (Or.inl h1))
        · exact Or.inr (Or.inr (Or.inr (Or.inl h1)))
        · exact Or.inr (Or.inr (Or.inr (Or.inr (Or.inl h1))))
    · by_cases hg : gov = ""
      · rw [if_pos hg] at hfg
        simp at hfg
      · rw [if_neg hg] at hfg
        simp only [List.mem_singleton] at hfg
        subst hfg
        exact Or.inr (Or.inr (Or.inr (Or.inr (Or.inr ⟨gov, hg, rfl⟩))))

/-- C5 (counterexample): with a non-vendor driver and a tool reporting no
boost support, the produced item contains the literal
`"boost:not suppported"` (line 300's misspelling), not the claim's
`"boost:not supported"`. -/
theorem claim_C5_cex :
    get_cpu_config
        ⟨"acpi-cpufreq", "", "", .exitOk ["  boost state support:", "    Supported: no"]⟩
        initToolState =
      (⟨true, 1⟩, .ok (some "driver:acpi-cpufreq, boost:not suppported")) ∧
    "driver:acpi-cpufreq, boost:not suppported" ≠ "driver:acpi-cpufreq, boost:not supported" := by
  exact ⟨by rfl, by decide⟩

/-- C5 (amended): the per-core config item is assembled exactly as the spec
describes except for the literal: vendor driver plus `no_turbo` flag `1`/`0`
give `intel_pstate:no turbo`/`intel_pstate:turbo` and anything else no
entry (without consulting the tool); otherwise the tool result gives
`boost:supported` on true, `boost:not suppported` (sic) on false, no entry
on none; and every produced item is a nonempty `", "`-join of fragments
from the grammar `[driver:<name>][, <boost-or-turbo>][, governor:<name>]`. -/
theorem claim_C5 :
    (∀ (e : CpuEnv) (st : ToolState), e.driver = "intel_pstate" →
       get_cpu_config e st =
         (st, .ok (configSpec e.driver (boostFragSpec e.driver e.noTurbo none) e.governor))) ∧
    (∀ (e : CpuEnv) (st : ToolState), ¬(e.driver = "intel_pstate") →
       get_cpu_config e st =
         ((run_cpu_boost st e.outcome).1,
          (run_cpu_boost st e.outcome).2.map
            (fun b => configSpec e.driver (boostFragSpec e.driver e.noTurbo b) e.governor))) ∧
    (∀ (e : CpuEnv) (st st' : ToolState) (s : String),
       get_cpu_config e st = (st', .ok (some s)) →
       ∃ frags : List String, frags ≠ [] ∧ s = String.intercalate ", " frags ∧
         ∀ f ∈ frags, fragOk f) := by
  refine ⟨config_refine_intel, config_refine_tool, ?_⟩
  intro e st st' s h
  by_cases hd : e.driver = "intel_pstate"
  · rw [config_refine_intel e st hd] at h
    have hs : configSpec e.driver (boostFragSpec e.driver e.noTurbo none) e.governor = some s := by
      have := congrArg Prod.snd h
      simpa using this
    exact configSpec_grammar (fun b hb => boostFragSpec_cases hb) hs
  · rw [config_refine_tool e st hd] at h
    have h2 := congrArg Prod.snd h
    simp only at h2
    cases hr : (run_cpu_boost st e.outcome).2 with
    | error er => rw [hr] at h2; cases h2
    | ok b =>
      rw [hr] at h2
      have hs : configSpec e.driver (boostFragSpec e.driver e.noTurbo b) e.governor = some s := by
        simpa [Except.map] using h2
      exact configSpec_grammar (fun x hx => boostFragSpec_cases hx) hs

/-- C5 (witness): concrete instances — the vendor-driver path, the tool
path, and the grammar of a produced item. -/
theorem claim_C5_wit :
    get_cpu_config ⟨"intel_pstate", "1", "powersave", .launchFail⟩ ⟨true, 0⟩ =
      (⟨true, 0⟩,
       .ok (configSpec "intel_pstate" (boostFragSpec "intel_pstate" "1" none) "powersave")) ∧
    get_cpu_config ⟨"acpi-cpufreq", "", "", .launchFail⟩ ⟨true, 0⟩ =
      ((run_cpu_boost ⟨true, 0⟩ .launchFail).1,
       (run_cpu_boost ⟨true, 0⟩ .launchFail).2.map
         (fun b => configSpec "acpi-cpufreq" (boostFragSpec "acpi-cpufreq" "" b) "")) ∧
    (∃ frags : List String, frags ≠ [] ∧
       "driver:acpi-cpufreq, boost:supported, governor:performance" =
         String.intercalate ", " frags ∧
       ∀ f ∈ frags, fragOk f) := by
  refine ⟨claim_C5.1 _ _ rfl, claim_C5.2.1 _ _ (by decide), ?_⟩
  exact claim_C5.2.2
    ⟨"acpi-cpufreq", "", "performance", .exitOk ["  boost state support:", "    Supported: yes"]⟩
    ⟨true, 0⟩ ⟨true, 1⟩ "driver:acpi-cpufreq, boost:supported, governor:performance" (by rfl)

/-- C9: the affinity description is none when the affinity set is
empty/unknown or the core count is unknown, none when the affinity set
equals the full range, and otherwise the compact range-list rendering with
`" (isolated)"` appended exactly when the isolated set is non-empty and the
affinity set is contained in it. -/
theorem claim_C9 :
    (∀ (count : Option Nat) (iso : List Nat), collect_cpu_affinity none count iso = none) ∧
    (∀ (count : Option Nat) (iso : List Nat), collect_cpu_affinity (some []) count iso = none) ∧
    (∀ (aff iso : List Nat), collect_cpu_affinity (some aff) none iso = none) ∧
    (∀ (aff iso : List Nat) (n : Nat), aff ≠ [] → 0 < n →
       listSetEq aff (List.range n) = true →
       collect_cpu_affinity (some aff) (some n) iso = none) ∧
    (∀ (aff iso : List Nat) (n : Nat), aff ≠ [] → 0 < n →
       listSetEq aff (List.range n) = false →
       collect_cpu_affinity (some aff) (some n) iso =
         (if iso ≠ [] ∧ (∀ c ∈ aff, c ∈ iso)
          then some (format_cpu_list aff ++ " (isolated)")
          else some (format_cpu_list aff))) := by
  refine ⟨fun _ _ => rfl, fun _ _ => rfl, ?_, ?_, ?_⟩
  · intro aff iso
    by_cases h : aff = [] <;> simp [collect_cpu_affinity, h]
  · intro aff iso n hne hpos hset
    have hn : ¬(n = 0) := Nat.pos_iff_ne_zero.mp hpos
    simp [collect_cpu_affinity, hne, hn, hset]
  · intro aff iso n hne hpos hset
    have hn : ¬(n = 0) := Nat.pos_iff_ne_zero.mp hpos
    simp [collect_cpu_affinity, hne, hn, hset]

/-- C9 (witness): unknown affinity, the spec's end-to-end example 4
(isolated subset), and a proper subset not contained in isolated cores. -/
theorem claim_C9_wit :
    collect_cpu_affinity none (some 4) [] = none ∧
    collect_cpu_affinity (some [2, 3]) (some 8) [2, 3] = some "2-3 (isolated)" ∧
    collect_cpu_affinity (some [0, 2]) (some 4) [] = some "0,2" := by
  refine ⟨claim_C9.1 (some 4) [], ?_, ?_⟩
  · have h := claim_C9.2.2.2.2 [2, 3] [2, 3] 8 (by decide) (by decide) (by decide)
    rw [h]
    decide
  · have h := claim_C9.2.2.2.2 [0, 2] [] 4 (by decide) (by decide) (by decide)
    rw [h]
    decide

/-- C2 (code bug): when the affinity set is unavailable, line 396 assigns
the bare integer core count to `all_cpus` and hands it to the probes, where
`set(all_cpus)` raises `TypeError`: with count 2 and no affinity the
collection aborts right after writing `cpu_count`, and no `cpu_freq` or
`cpu_config` fact is produced — instead of probing the core set `{0, 1}`.
When the affinity set is present the probes do receive the set and work. -/
theorem claim_C2 :
    collect_cpu_metadata
        ⟨some 2, none, ["processor\t: 0", "cpu MHz\t\t: 2400.0"],
         fun _ => "", "", fun _ => "", fun _ => .launchFail, [], none⟩ initToolState =
      ([("cpu_count", FactVal.int 2)], initToolState, some PErr.typeError) ∧
    collect_cpu_metadata
        ⟨some 2, some [0, 1],
         ["processor\t: 0", "cpu MHz\t\t: 2400.0", "processor\t: 1", "cpu MHz\t\t: 2400.0"],
         fun _ => "", "", fun _ => "", fun _ => .launchFail, [], none⟩ initToolState =
      ([("cpu_count", FactVal.int 2), ("cpu_freq", FactVal.str "0-1=2400 MHz")],
       ⟨false, 1⟩, none) := by
  exact ⟨by rfl, by rfl⟩

/-- `cpu_model_name` write of `_collect_linux_metadata` (lines 100-105) as a
fact list. -/
def modelNameFact (lines : List String) : Except PErr (List (String × FactVal)) :=
  match collect_model_name lines with
  | .error e => .error e
  | .ok none => .ok []
  | .ok (some s) => .ok [("cpu_model_name", FactVal.str s)]

/-- The (amended) typing discipline of the produced facts: `cpu_count` holds
an integer, the other collector keys hold strings. -/
def wellTypedFact (kv : String × FactVal) : Prop :=
  (kv.1 = "cpu_count" ∧ ∃ n, kv.2 = FactVal.int n) ∨
  (kv.1 ∈ (["cpu_affinity", "cpu_freq", "cpu_config", "cpu_temp"] : List String) ∧
    ∃ s, kv.2 = FactVal.str s)

theorem countFact_shape {cc : Option Nat} {kv : String × FactVal}
    (h : kv ∈ countFact cc) : wellTypedFact kv := by
  cases cc with
  | none => simp [countFact] at h
  | some n =>
    simp only [countFact, List.mem_singleton] at h
    subst h
    exact Or.inl ⟨rfl, n, rfl⟩

theorem affinityFact_shape {aff : Option (List Nat)} {cc : Option Nat} {iso : List Nat}
    {kv : String × FactVal} (h : kv ∈ affinityFact aff cc iso) : wellTypedFact kv := by
  unfold affinityFact at h
  cases hc : collect_cpu_affinity aff cc iso with
  | none => rw [hc] at h; simp at h
  | some t =>
    rw [hc] at h
    simp only [List.mem_singleton] at h
    subst h
    exact Or.inr ⟨by simp, t, rfl⟩

theorem freqFact_shape {cores : List Nat} {lines : List String}
    {facts : List (String × FactVal)} {kv : String × FactVal}
    (hf : freqFact cores lines = .ok facts) (h : kv ∈ facts) : wellTypedFact kv := by
  unfold freqFact at hf
  cases hm : collect_cpu_freq cores lines with
  | error e => rw [hm] at hf; cases hf
  | ok m =>
    rw [hm] at hf
    dsimp only at hf
    by_cases hem : m = []
    · rw [if_pos hem] at hf
      cases hf
      simp at h
    · rw [if_neg hem] at hf
      cases hs : format_cpu_infos m cores.dedup with
      | error e => rw [hs] at hf; cases hf
      | ok s =>
        rw [hs] at hf
        cases hf
        simp only [List.mem_singleton] at h
        subst h
        exact Or.inr ⟨by simp, s, rfl⟩

theorem configFact_shape {env : MetaEnv} {cpus : List Nat} {st st' : ToolState}
    {facts : List (String × FactVal)} {kv : String × FactVal}
    (hf : configFact env cpus st = (st', .ok facts)) (h : kv ∈ facts) : wellTypedFact kv := by
  unfold configFact at hf
  rcases hl : configLoop env cpus st with ⟨st2, r⟩
  rw [hl] at hf
  cases r with
  | error e => cases hf
  | ok configs =>
    dsimp only at hf
    by_cases hec : configs = []
    · rw [if_pos hec] at hf
      cases hf
      simp at h
    · rw [if_neg hec] at hf
      cases hs : format_cpu_infos configs cpus with
      | error e => rw [hs] at hf; cases hf
      | ok s =>
        rw [hs] at hf
        cases hf
        simp only [List.mem_singleton] at h
        subst h
        exact Or.inr ⟨by simp, s, rfl⟩

theorem tempFact_shape {hw : Option (List HwmonDevice)} {facts : List (String × FactVal)}
    {kv : String × FactVal} (hf : tempFact hw = .ok facts) (h : kv ∈ facts) :
    wellTypedFact kv := by
  unfold tempFact at hf
  cases hw with
  | none =>
    cases hf
    simp at h
  | some devs =>
    dsimp only at hf
    cases hl : tempsLoop devs with
    | error e => rw [hl] at hf; cases hf
    | ok items =>
      rw [hl] at hf
      dsimp only at hf
      by_cases hei : items = []
      · rw [if_pos hei] at hf
        cases hf
        simp at h
      · rw [if_neg hei] at hf
        cases hf
        simp only [List.mem_singleton] at h
        subst h
        exact Or.inr ⟨by simp, _, rfl⟩

theorem finishTemps_mem {md : List (String × FactVal)} {st : ToolState}
    {hw : Option (List HwmonDevice)} {kv : String × FactVal}
    (h : kv ∈ (finishTemps md st hw).1) :
    kv ∈ md ∨ ∃ facts, tempFact hw = .ok facts ∧ kv ∈ facts := by
  unfold finishTemps at h
  cases ht : tempFact hw with
  | error e =>
    rw [ht] at h
    exact Or.inl h
  | ok mdT =>
    rw [ht] at h
    rcases List.mem_append.mp h with hm | hm
    · exact Or.inl hm
    · exact Or.inr ⟨mdT, rfl, hm⟩

/-- C10 (counterexample): `cpu_count` is written as the integer count
itself (line 389), not as a string. -/
theorem claim_C10_cex :
    (collect_cpu_metadata
        ⟨some 4, some [0, 1, 2, 3], [], fun _ => "", "", fun _ => "", fun _ => .launchFail,
         [], none⟩ initToolState).1 = [("cpu_count", FactVal.int 4)] ∧
    (FactVal.int 4).isStr = false := by
  exact ⟨by rfl, by rfl⟩

/-- C10 (amended): every fact the collector writes under `cpu_affinity`,
`cpu_freq`, `cpu_config`, `cpu_temp` — and `cpu_model_name`, written by the
linux-metadata step — is a string, while `cpu_count` is written as the
integer count itself. -/
theorem claim_C10 :
    (∀ (env : MetaEnv) (st : ToolState) (kv : String × FactVal),
       kv ∈ (collect_cpu_metadata env st).1 → wellTypedFact kv) ∧
    (∀ (lines : List String) (facts : List (String × FactVal)) (kv : String × FactVal),
       modelNameFact lines = .ok facts → kv ∈ facts →
       kv.1 = "cpu_model_name" ∧ ∃ s, kv.2 = FactVal.str s) := by
  constructor
  · intro env st kv h
    unfold collect_cpu_metadata at h
    dsimp only at h
    have hmd : ∀ kv2 : String × FactVal,
        kv2 ∈ countFact (get_logical_cpu_count env.cpuCountRaw) ++
          affinityFact env.affinity (get_logical_cpu_count env.cpuCountRaw) env.isolated →
        wellTypedFact kv2 := by
      intro kv2 h2
      rcases List.mem_append.mp h2 with hm | hm
      · exact countFact_shape hm
      · exact affinityFact_shape hm
    cases heff : effScope env.affinity (get_logical_cpu_count env.cpuCountRaw) with
    | none =>
      rw [heff] at h
      dsimp only at h
      rcases finishTemps_mem h with hm | ⟨facts, hft, hm⟩
      · exact hmd kv hm
      · exact tempFact_shape hft hm
    | some sc =>
      rw [heff] at h
      cases sc with
      | cnt n => exact hmd kv h
      | cpuSet l =>
        dsimp only at h
        cases hfF : freqFact l env.cpuinfo with
        | error e =>
          rw [hfF] at h
          dsimp only at h
          exact hmd kv h
        | ok mdF =>
          rw [hfF] at h
          dsimp only at h
          rcases hcF : configFact env l st with ⟨st2, r⟩
          rw [hcF] at h
          cases r with
          | error e =>
            rcases List.mem_append.mp h with hm | hm
            · exact hmd kv hm
            · exact freqFact_shape hfF hm
          | ok mdC =>
            rcases finishTemps_mem h with hm | ⟨facts, hft, hm⟩
            · rcases List.mem_append.mp hm with hm2 | hm2
              · rcases List.mem_append.mp hm2 with hm3 | hm3
                · exact hmd kv hm3
                · exact freqFact_shape hfF hm3
              · exact configFact_shape hcF hm2
            · exact tempFact_shape hft hm
  · intro lines facts kv hf h
    unfold modelNameFact at hf
    cases hm : collect_model_name lines with
    | error e => rw [hm] at hf; cases hf
    | ok r =>
      rw [hm] at hf
      cases r with
      | none =>
        cases hf
        simp at h
      | some s =>
        cases hf
        simp only [List.mem_singleton] at h
        subst h
        exact ⟨rfl, s, rfl⟩

/-- C10 (witness): concrete instances — the integer `cpu_count` fact of a
real collector run, and the string `cpu_model_name` fact. -/
theorem claim_C10_wit :
    wellTypedFact ("cpu_count", FactVal.int 1) ∧
    (("cpu_model_name", FactVal.str "Intel").1 = "cpu_model_name" ∧
      ∃ s, ("cpu_model_name", FactVal.str "Intel").2 = FactVal.str s) :=
  ⟨claim_C10.1
      ⟨some 1, some [0], [], fun _ => "", "", fun _ => "", fun _ => .launchFail, [], none⟩
      initToolState ("cpu_count", FactVal.int 1) (by decide),
   claim_C10.2 ["model name\t: Intel"] [("cpu_model_name", FactVal.str "Intel")]
      ("cpu_model_name", FactVal.str "Intel") (by rfl) (by decide)⟩

/-- C6 (witness): the spec's end-to-end examples — identical values merge to
a range form, distinct values stay per-core. -/
theorem claim_C6_wit :
    format_cpu_infos [(0, "2400 MHz"), (1, "2400 MHz")] [0, 1] = .ok "0-1=2400 MHz" ∧
    format_cpu_infos [(0, "2400 MHz"), (1, "2500 MHz")] [0, 1] = .ok "0=2400 MHz, 1=2500 MHz" := by
  constructor
  · have h := (claim_C6 [(0, "2400 MHz"), (1, "2400 MHz")] [0, 1] (by decide)).1
      "2400 MHz" (by decide) (by decide)
    rw [h]; rfl
  · have h := (claim_C6 [(0, "2400 MHz"), (1, "2500 MHz")] [0, 1] (by decide)).2
      (fun c => if c = 0 then "2400 MHz" else "2500 MHz") (by decide)
      ⟨0, by decide, 1, by decide, by decide⟩
    rw [h.1]; rfl

end PyperfMeta
